import Mathlib

/-!
Verification of the phylum extension subsystem: a shallow embedding of
`cli/src/deno.rs` (the sandboxed module loader) and
`cli/src/commands/extensions/extension.rs` (the extension lifecycle
manager), together with theorems settling the specification claims.

Paths are modelled as lists of components; the filesystem is a finite
association list from paths to nodes (directory, regular file with string
content, or symbolic link with a target path).  Rust's `Path::is_dir`,
`Path::is_file` and `Path::exists` follow symbolic links, while
`Path::is_symlink` does not; the embedding mirrors this via a fuelled
symlink resolution (the OS bounds link chains, e.g. ELOOP).
-/

namespace Phylum

/-- A filesystem node: directory, regular file (with contents), or symlink. -/
inductive FsNode where
  | dir : FsNode
  | file : String → FsNode
  | symlink : List String → FsNode
deriving DecidableEq, Repr

/-- A filesystem: an association list from absolute paths (component lists)
to nodes.  Earlier entries shadow later ones. -/
structure FileSystem where
  entries : List (List String × FsNode)
deriving DecidableEq, Repr

/-- Association-list lookup on raw entry lists. -/
def lookupEntries : List (List String × FsNode) → List String → Option FsNode
  | [], _ => none
  | e :: rest, p => if e.1 = p then some e.2 else lookupEntries rest p

/-- Look a path up in the filesystem, without following symlinks
(the analogue of `symlink_metadata`). -/
def FileSystem.lookup (fs : FileSystem) (p : List String) : Option FsNode :=
  lookupEntries fs.entries p

/-- Bound on symlink-chain resolution, standing in for the OS ELOOP limit. -/
def symlinkFuel : Nat := 40

/-- Resolve a path to a node, following symlink chains (the analogue of
`std::fs::metadata`); `none` when the path does not exist or the chain is
too long or dangling. -/
def FileSystem.resolveNode (fs : FileSystem) : Nat → List String → Option FsNode
  | 0, _ => none
  | fuel + 1, p =>
    match fs.lookup p with
    | some (.symlink target) => fs.resolveNode fuel target
    | other => other

/-- `Path::is_dir`: follows symlinks. -/
def FileSystem.isDir (fs : FileSystem) (p : List String) : Bool :=
  match fs.resolveNode symlinkFuel p with
  | some .dir => true
  | _ => false

/-- `Path::is_file`: follows symlinks. -/
def FileSystem.isFile (fs : FileSystem) (p : List String) : Bool :=
  match fs.resolveNode symlinkFuel p with
  | some (.file _) => true
  | _ => false

/-- `Path::is_symlink`: does not follow symlinks. -/
def FileSystem.isSymlink (fs : FileSystem) (p : List String) : Bool :=
  match fs.lookup p with
  | some (.symlink _) => true
  | _ => false

/-- `Path::exists`: follows symlinks. -/
def FileSystem.pathExists (fs : FileSystem) (p : List String) : Bool :=
  (fs.resolveNode symlinkFuel p).isSome

/-- `fs::read_to_string` / `tokio::fs::read_to_string`: follows symlinks,
succeeds exactly on regular files. -/
def FileSystem.readToString (fs : FileSystem) (p : List String) : Option String :=
  match fs.resolveNode symlinkFuel p with
  | some (.file content) => some content
  | _ => none

/-- Insert (or shadow) a node at a path. -/
def FileSystem.insertNode (fs : FileSystem) (p : List String) (n : FsNode) : FileSystem :=
  ⟨(p, n) :: fs.entries⟩

/-- Component-wise path prefix test, the analogue of `Path::starts_with`. -/
def pathStartsWith : List String → List String → Bool
  | [], _ => true
  | _ :: _, [] => false
  | a :: as, b :: bs => a = b && pathStartsWith as bs

/-- All non-empty prefixes of a path, shortest first (used to model
`DirBuilder::recursive`, which creates missing ancestors). -/
def prefixesOf : List String → List (List String)
  | [] => []
  | a :: as => [a] :: (prefixesOf as).map (a :: ·)

/-- `DirBuilder` with `recursive(true)`: create the directory and any
missing ancestors; existing entries are left alone. -/
def FileSystem.mkdirRecursive (fs : FileSystem) (p : List String) : FileSystem :=
  (prefixesOf p).foldl
    (fun acc q => if acc.lookup q = none then acc.insertNode q .dir else acc) fs

/-- `fs::remove_dir_all`: drop every entry under (and including) `root`. -/
def FileSystem.removeSubtree (fs : FileSystem) (root : List String) : FileSystem :=
  ⟨fs.entries.filter (fun e => !(pathStartsWith root e.1))⟩

/-!
Embedding of `cli/src/deno.rs`: the sandboxed module loader
(`ExtensionsModuleLoader`).
-/

/-- `url::Host`. -/
inductive UrlHost where
  | domain : String → UrlHost
  | ipv4 : String → UrlHost
  | ipv6 : String → UrlHost
deriving DecidableEq, Repr

/-- A parsed URL, as much of `url::Url` as the loader consults: scheme,
host, and the path split into segments. -/
structure UrlSpec where
  scheme : String
  host : Option UrlHost
  pathSegs : List String
deriving DecidableEq, Repr

/-- A resolved module specifier: either the virtual `deno:phylum` locator
or an ordinary URL. -/
inductive ModuleSpecifier where
  | denoPhylum : ModuleSpecifier
  | url : UrlSpec → ModuleSpecifier
deriving DecidableEq, Repr

/-- `deno_ast::MediaType`. -/
inductive MediaType where
  | javaScript | jsx | mjs | cjs
  | typeScript | mts | cts | dts | dmts | dcts | tsx
  | json | wasm | tsBuildInfo | sourceMap | unknown
deriving DecidableEq, Repr

/-- `deno_core::ModuleType`. -/
inductive ModuleType where
  | javaScript | json
deriving DecidableEq, Repr

/-- `deno_core::ModuleSource`, reduced to the fields the claims mention:
the served code and the module kind. -/
structure ModuleSource where
  code : String
  module_type : ModuleType
deriving DecidableEq, Repr

/-- Split a character list at every dot (the semantics of
`String.splitOn "."`, in structurally recursive form so it reduces). -/
def splitOnDotAux : List Char → List Char → List (List Char)
  | [], acc => [acc.reverse]
  | c :: rest, acc =>
    if c = '.' then acc.reverse :: splitOnDotAux rest [] else splitOnDotAux rest (c :: acc)

/-- Split a file name at every dot. -/
def splitOnDot (fileName : String) : List String :=
  (splitOnDotAux fileName.data []).map (fun l => ⟨l⟩)

/-- `deno_ast::MediaType::from_path` applied to a file name: dispatch on
the extension, with the `.d.ts` / `.d.mts` / `.d.cts` stem refinement, and
no extension (including a bare leading-dot file) giving `Unknown`. -/
def mediaTypeOfFileName (fileName : String) : MediaType :=
  match (splitOnDot fileName).reverse with
  | [] => .unknown
  | [_] => .unknown
  | ext :: stem1 :: restRev =>
    if stem1 = "" && restRev = [] then .unknown
    else
      match ext with
      | "ts" => if stem1 = "d" && restRev ≠ [] then .dts else .typeScript
      | "mts" => if stem1 = "d" && restRev ≠ [] then .dmts else .mts
      | "cts" => if stem1 = "d" && restRev ≠ [] then .dcts else .cts
      | "tsx" => .tsx
      | "js" => .javaScript
      | "jsx" => .jsx
      | "mjs" => .mjs
      | "cjs" => .cjs
      | "json" => .json
      | "wasm" => .wasm
      | "tsbuildinfo" => .tsBuildInfo
      | "map" => .sourceMap
      | _ => .unknown

/-- `MediaType::from(&ModuleSpecifier)`: media type of the last path
segment of the URL. -/
def mediaTypeOf (u : UrlSpec) : MediaType :=
  mediaTypeOfFileName (u.pathSegs.getLast?.getD "")

/-- The `match media_type` statement at the top of
`ExtensionsModuleLoader::load`: module type and whether to transpile, or
`none` for the "Unknown JS module format" error. -/
def moduleTypeAndTranspile : MediaType → Option (ModuleType × Bool)
  | .javaScript | .mjs | .cjs => some (.javaScript, false)
  | .typeScript | .jsx | .mts | .cts | .dts | .dmts | .dcts | .tsx =>
    some (.javaScript, true)
  | .json => some (.json, false)
  | _ => none

/-- Errors the loader can produce. -/
inductive LoadErr where
  | notAPath
  | outsideExtensionsDir
  | symlinkImport
  | readErr
  | badHost
  | fetchErr
  | unsupportedScheme
  | unknownFormat
  | transpileErr
deriving DecidableEq, Repr

/-- Observable side effects of a load: filesystem reads and network
fetches. -/
inductive Effect where
  | fsRead : List String → Effect
  | netFetch : UrlSpec → Effect
deriving DecidableEq, Repr

/-- `Url::to_file_path`: succeeds for host-less file URLs. -/
def toFilePath (u : UrlSpec) : Option (List String) :=
  match u.host with
  | none => some u.pathSegs
  | some _ => none

/-- `ExtensionsModuleLoader::load_from_filesystem`: convert the URL to a
path, reject paths that do not start with the extensions directory, reject
symlinks, then read the file.  The effect trace records the read. -/
def load_from_filesystem (fs : FileSystem) (extensionsPath : List String)
    (u : UrlSpec) : Except LoadErr String × List Effect :=
  match toFilePath u with
  | none => (.error .notAPath, [])
  | some path =>
    if !(pathStartsWith extensionsPath path) then (.error .outsideExtensionsDir, [])
    else if fs.isSymlink path then (.error .symlinkImport, [])
    else
      match fs.readToString path with
      | some code => (.ok code, [.fsRead path])
      | none => (.error .readErr, [.fsRead path])

/-- `ExtensionsModuleLoader::load_from_deno_std`: fetch only when the host
is the domain `deno.land`; any other host is an error and nothing is
fetched.  `net` models the network response. -/
def load_from_deno_std (net : UrlSpec → Except Unit String) (u : UrlSpec) :
    Except LoadErr String × List Effect :=
  if u.host = some (.domain "deno.land") then
    match net u with
    | .ok text => (.ok text, [.netFetch u])
    | .error _ => (.error .fetchErr, [.netFetch u])
  else (.error .badHost, [])

/-- `ExtensionsModuleLoader::load`: serve the virtual `deno:phylum`
module; classify the media type (unknown formats error out before any
I/O); dispatch on the scheme (`file` to the filesystem, `https` to the
deno.land fetcher, anything else unsupported); transpile when the media
type calls for it.  `tr` models `transpile` (code and media type to
transpiled code), `extensionApi` the included `extension_api.ts` source. -/
def load (fs : FileSystem) (extensionsPath : List String)
    (net : UrlSpec → Except Unit String)
    (tr : String → MediaType → Except Unit String)
    (extensionApi : String) (spec : ModuleSpecifier) :
    Except LoadErr ModuleSource × List Effect :=
  match spec with
  | .denoPhylum =>
    match tr extensionApi .typeScript with
    | .ok code => (.ok ⟨code, .javaScript⟩, [])
    | .error _ => (.error .transpileErr, [])
  | .url u =>
    let mediaType := mediaTypeOf u
    match moduleTypeAndTranspile mediaType with
    | none => (.error .unknownFormat, [])
    | some (module_type, shouldTranspile) =>
      let loaded : Except LoadErr String × List Effect :=
        if u.scheme = "file" then load_from_filesystem fs extensionsPath u
        else if u.scheme = "https" then load_from_deno_std net u
        else (.error .unsupportedScheme, [])
      match loaded with
      | (.error e, effects) => (.error e, effects)
      | (.ok code, effects) =>
        if shouldTranspile then
          match tr code mediaType with
          | .ok code2 => (.ok ⟨code2, module_type⟩, effects)
          | .error _ => (.error .transpileErr, effects)
        else (.ok ⟨code, module_type⟩, effects)

/-!
Embedding of `cli/src/commands/extensions/extension.rs`: manifest,
validation, install, uninstall.
-/

/-- `MANIFEST_NAME`. -/
def MANIFEST_NAME : String := "PhylumExt.toml"

/-- The declared permission set.  Its internal structure is irrelevant to
the claims; it is carried through unchanged. -/
structure Permissions where
deriving DecidableEq, Repr

/-- `ExtensionManifest`.  `entry_point` is the relative path split into
components. -/
structure ExtensionManifest where
  name : String
  description : Option String
  entry_point : List String
  permissions : Permissions
deriving DecidableEq, Repr

/-- `Extension`: a validated package, its root path and manifest. -/
structure Extension where
  path : List String
  manifest : ExtensionManifest
deriving DecidableEq, Repr

/-- `extensions_path`: `<data dir>/phylum/extensions`. -/
def extensions_path (dataDir : List String) : List String :=
  dataDir ++ ["phylum", "extensions"]

/-- `extension_path`: `<data dir>/phylum/extensions/<name>`. -/
def extension_path (dataDir : List String) (name : String) : List String :=
  extensions_path dataDir ++ [name]

/-- First character class of `EXTENSION_NAME_RE`, i.e. `[a-z]`. -/
def isNameHead (c : Char) : Bool :=
  'a' ≤ c && c ≤ 'z'

/-- Repeated character class of `EXTENSION_NAME_RE`, i.e. `[a-z0-9-]`. -/
def isNameTail (c : Char) : Bool :=
  isNameHead c || ('0' ≤ c && c ≤ '9') || c = '-'

/-- `EXTENSION_NAME_RE.is_match`: the anchored regex `^[a-z][a-z0-9-]+$`
(one `[a-z]`, then one or more `[a-z0-9-]`). -/
def extensionNameMatches (name : String) : Bool :=
  match name.data with
  | [] => false
  | c :: rest => isNameHead c && !rest.isEmpty && rest.all isNameTail

/-- The error message produced by `validate_name` on rejection. -/
def invalidNameMessage (name : String) : String :=
  name ++
    ": invalid extension name, must be lowercase alphanumeric, dash (-) or underscore (_)"

/-- `validate_name`. -/
def validate_name (name : String) : Except String Unit :=
  if extensionNameMatches name then .ok () else .error (invalidNameMessage name)

/-- Failure modes of `TryFrom<PathBuf> for Extension`, in source order. -/
inductive ConstructErr where
  | notADirectory
  | missingManifest
  | readFailed
  | parseFailed
  | entryPointMissing
  | entryPointNotFile
  | invalidName : String → ConstructErr
deriving DecidableEq, Repr

/-- `TryFrom<PathBuf> for Extension`: directory check, manifest existence,
read, TOML parse (`parse` models `toml::from_slice`), entry-point
existence, entry-point regular-file check, then name validation.  -/
def tryFromPath (parse : String → Option ExtensionManifest) (fs : FileSystem)
    (path : List String) : Except ConstructErr Extension :=
  if !(fs.isDir path) then .error .notADirectory
  else
    let manifestPath := path ++ [MANIFEST_NAME]
    if !(fs.pathExists manifestPath) then .error .missingManifest
    else
      match fs.readToString manifestPath with
      | none => .error .readFailed
      | some buf =>
        match parse buf with
        | none => .error .parseFailed
        | some manifest =>
          let entryPointPath := path ++ manifest.entry_point
          if !(fs.pathExists entryPointPath) then .error .entryPointMissing
          else if !(fs.isFile entryPointPath) then .error .entryPointNotFile
          else
            match validate_name manifest.name with
            | .error msg => .error (.invalidName msg)
            | .ok _ => .ok ⟨path, manifest⟩

/-- Names of the direct children of `p` present in the filesystem. -/
def childNames (fs : FileSystem) (p : List String) : List String :=
  fs.entries.filterMap (fun e =>
    if e.1.length = p.length + 1 && pathStartsWith p e.1 then e.1.getLast? else none)

/-- `WalkDir::new(root)` with default options: yields the root, then
recursively the contents of directories; symlinks are yielded but not
descended into (`follow_links` defaults to false). -/
def walkList (fs : FileSystem) : Nat → List String → List (List String)
  | 0, p => [p]
  | fuel + 1, p =>
    p ::
      match fs.lookup p with
      | some .dir => ((childNames fs p).map (fun n => walkList fs fuel (p ++ [n]))).flatten
      | _ => []

/-- Fuel ample for any walk of `fs` (depth is bounded by the entry count). -/
def walkFuel (fs : FileSystem) : Nat :=
  fs.entries.length + 1

/-- One iteration of the copy loop in `Extension::install`: `is_dir`
(follows symlinks!) recreates the directory at the destination; otherwise
`is_symlink` skips the entry with a warning; otherwise `is_file` copies it
unless the destination already exists. -/
def installEntry (fs : FileSystem) (srcRoot destRoot source_path : List String) :
    Except String FileSystem :=
  let dest_path := destRoot ++ source_path.drop srcRoot.length
  if fs.isDir source_path then .ok (fs.mkdirRecursive dest_path)
  else if fs.isSymlink source_path then .ok fs
  else if fs.isFile source_path then
    if fs.pathExists dest_path then
      .error (String.intercalate "/" dest_path ++ ": already exists")
    else
      match fs.readToString source_path with
      | some content => .ok (fs.insertNode dest_path (.file content))
      | none => .error "copy failed"
  else .ok fs

/-- The copy loop of `Extension::install` over a walk listing; on failure
the filesystem reached so far is kept (no rollback). -/
def installWalk (srcRoot destRoot : List String) :
    FileSystem → List (List String) → Except String Unit × FileSystem
  | fs, [] => (.ok (), fs)
  | fs, p :: rest =>
    match installEntry fs srcRoot destRoot p with
    | .ok fs2 => installWalk srcRoot destRoot fs2 rest
    | .error e => (.error e, fs)

/-- `Extension::install`: refuse when the canonical target already exists,
refuse when target and source are the identical path, otherwise walk the
source tree and copy.  The returned filesystem is the post-state (unchanged
on the two pre-copy refusals). -/
def install (fs : FileSystem) (dataDir : List String) (ext : Extension) :
    Except String Unit × FileSystem :=
  let target_prefix := extension_path dataDir ext.manifest.name
  if fs.pathExists target_prefix then
    (.error "extension already exists, skipping", fs)
  else if target_prefix = ext.path then
    (.error "extension path and installation path are identical, skipping", fs)
  else installWalk ext.path target_prefix fs (walkList fs (walkFuel fs) ext.path)

/-- `Extension::uninstall`: refuse unless the backing path is exactly the
canonical install path for the declared name; otherwise
`fs::remove_dir_all` the backing directory. -/
def uninstall (fs : FileSystem) (dataDir : List String) (ext : Extension) :
    Except String Unit × FileSystem :=
  let target_prefix := extension_path dataDir ext.manifest.name
  if target_prefix ≠ ext.path then
    (.error ("extension " ++ ext.manifest.name ++ " is not installed, skipping"), fs)
  else
    match fs.lookup ext.path with
    | some .dir => (.ok (), fs.removeSubtree ext.path)
    | _ => (.error "remove_dir_all failed", fs)

/-- Substring containment, for claims about error-message contents. -/
def strContains (hay needle : List Char) : Prop :=
  ∃ pre post, hay = pre ++ needle ++ post

/-!
Helper lemmas.
-/

/-- Looking up a path inside a removed subtree finds nothing. -/
theorem lookupEntries_filter_subtree (root p : List String)
    (h : pathStartsWith root p = true) (l : List (List String × FsNode)) :
    lookupEntries (l.filter fun e => !(pathStartsWith root e.1)) p = none := by
  induction l with
  | nil => rfl
  | cons e rest ih =>
    by_cases he : pathStartsWith root e.1 = true
    · simp [List.filter_cons, he, ih]
    · have hne : e.1 ≠ p := by
        intro hh
        exact he (hh ▸ h)
      simp [List.filter_cons, he, lookupEntries, hne, ih]

/-- After `removeSubtree root`, no path under `root` is present. -/
theorem lookup_removeSubtree (fs : FileSystem) (root p : List String)
    (h : pathStartsWith root p = true) :
    (fs.removeSubtree root).lookup p = none :=
  lookupEntries_filter_subtree root p h fs.entries

/-- A path of components starts with itself. -/
theorem pathStartsWith_refl (p : List String) : pathStartsWith p p = true := by
  induction p with
  | nil => rfl
  | cons a as ih => simp [pathStartsWith, ih]

/-- The implementation regex `^[a-z][a-z0-9-]+$`, characterised
independently: at least two characters, a lowercase head, and every later
character lowercase, a digit, or a dash. -/
theorem extensionNameMatches_iff (name : String) :
    extensionNameMatches name = true ↔
      2 ≤ name.length ∧
        ∃ c cs, name.data = c :: cs ∧ ('a' ≤ c ∧ c ≤ 'z') ∧
          ∀ x ∈ cs, ('a' ≤ x ∧ x ≤ 'z') ∨ ('0' ≤ x ∧ x ≤ '9') ∨ x = '-' := by
  have hlen : name.length = name.data.length := rfl
  unfold extensionNameMatches
  cases hd : name.data with
  | nil => simp [hlen, hd]
  | cons c cs =>
    have hempty : ∀ l : List Char, (!l.isEmpty) = true ↔ l ≠ [] := by
      intro l
      cases l <;> simp
    simp only [hlen, hd, List.length_cons, Bool.and_eq_true, hempty,
      List.all_eq_true, isNameHead, isNameTail, Bool.or_eq_true,
      decide_eq_true_eq]
    constructor
    · rintro ⟨⟨h1, h2⟩, h3⟩
      have hcs : 1 ≤ cs.length := by
        cases cs
        · exact absurd rfl h2
        · simp
      refine ⟨by omega, c, cs, rfl, h1, fun x hx => ?_⟩
      have := h3 x hx
      tauto
    · rintro ⟨h2, c', cs', heq, h1, h3⟩
      injection heq with hc hcs
      subst hc
      subst hcs
      refine ⟨⟨h1, ?_⟩, fun x hx => ?_⟩
      · intro hnil
        subst hnil
        simp at h2
      · have := h3 x hx
        tauto

/-!
Claim theorems.
-/

/-- C8: for every candidate name, `validate_name` accepts iff the name
matches `^[a-z][a-z0-9-]+$` (a lowercase letter followed by one or more
characters among lowercase letters, digits and dashes), and every
rejection message contains "invalid extension name". -/
theorem c8_validate_name (name : String) :
    ((validate_name name).isOk = true ↔
      2 ≤ name.length ∧
        ∃ c cs, name.data = c :: cs ∧ ('a' ≤ c ∧ c ≤ 'z') ∧
          ∀ x ∈ cs, ('a' ≤ x ∧ x ≤ 'z') ∨ ('0' ≤ x ∧ x ≤ '9') ∨ x = '-') ∧
    ∀ msg, validate_name name = .error msg →
      strContains msg.data "invalid extension name".data := by
  constructor
  · rw [← extensionNameMatches_iff]
    unfold validate_name
    cases h : extensionNameMatches name <;> simp [h, Except.isOk, Except.toBool]
  · intro msg hmsg
    unfold validate_name at hmsg
    cases h : extensionNameMatches name with
    | true => simp [h] at hmsg
    | false =>
      simp [h] at hmsg
      refine ⟨name.data ++ ": ".data,
        ", must be lowercase alphanumeric, dash (-) or underscore (_)".data, ?_⟩
      rw [← hmsg]
      show (invalidNameMessage name).data = _
      unfold invalidNameMessage
      rw [String.data_append]
      have : (": invalid extension name, must be lowercase alphanumeric, dash (-) or underscore (_)" : String).data =
          ": ".data ++ "invalid extension name".data ++
            ", must be lowercase alphanumeric, dash (-) or underscore (_)".data := rfl
      rw [this]
      simp

/-- C8 witness: `sample` is accepted; the rejection message for `@@@`
contains "invalid extension name". -/
theorem c8_validate_name_witness :
    (validate_name "sample").isOk = true ∧
      strContains (invalidNameMessage "@@@").data "invalid extension name".data :=
  ⟨(c8_validate_name "sample").1.mpr
      ⟨by decide, 's', ['a', 'm', 'p', 'l', 'e'], rfl, by decide, by decide⟩,
    (c8_validate_name "@@@").2 (invalidNameMessage "@@@") rfl⟩

/-- Resolution of a path that is not present at all yields nothing. -/
theorem resolveNode_lookup_none (fs : FileSystem) (p : List String) (fuel : Nat)
    (h : fs.lookup p = none) : fs.resolveNode fuel p = none := by
  cases fuel with
  | zero => rfl
  | succ n => simp [FileSystem.resolveNode, h]

/-- C4: uninstall fails and deletes nothing when the backing path differs
from the canonical install path for the declared name; when they are
identical it succeeds and recursively deletes the backing directory, so
the canonical directory (and everything under it) no longer exists. -/
theorem c4_uninstall (fs : FileSystem) (dataDir : List String) (ext : Extension) :
    (extension_path dataDir ext.manifest.name ≠ ext.path →
      uninstall fs dataDir ext =
        (.error ("extension " ++ ext.manifest.name ++ " is not installed, skipping"), fs)) ∧
    (extension_path dataDir ext.manifest.name = ext.path →
      fs.lookup ext.path = some .dir →
      (uninstall fs dataDir ext).1 = .ok () ∧
      (uninstall fs dataDir ext).2.pathExists ext.path = false ∧
      ∀ p, pathStartsWith ext.path p = true →
        (uninstall fs dataDir ext).2.lookup p = none) := by
  constructor
  · intro h
    simp [uninstall, h]
  · intro h hdir
    have heq : uninstall fs dataDir ext = (.ok (), fs.removeSubtree ext.path) := by
      simp [uninstall, h, hdir]
    have hnone := lookup_removeSubtree fs ext.path ext.path (pathStartsWith_refl _)
    refine ⟨by simp [heq], ?_, fun p hp => heq ▸ lookup_removeSubtree fs ext.path p hp⟩
    rw [heq]
    simp [FileSystem.pathExists, resolveNode_lookup_none _ _ _ hnone]

/-- Concrete extension whose backing path is not its canonical path. -/
def c4ExtA : Extension := ⟨["elsewhere"], ⟨"sample", none, ["main.js"], ⟨⟩⟩⟩

/-- Filesystem backing `c4ExtA`. -/
def c4FsA : FileSystem := ⟨[(["elsewhere"], .dir)]⟩

/-- Concrete extension installed at its canonical path. -/
def c4ExtB : Extension :=
  ⟨["d", "phylum", "extensions", "sample"], ⟨"sample", none, ["main.js"], ⟨⟩⟩⟩

/-- Filesystem backing `c4ExtB`. -/
def c4FsB : FileSystem :=
  ⟨[(["d", "phylum", "extensions", "sample"], .dir),
    (["d", "phylum", "extensions", "sample", "main.js"], .file "x")]⟩

/-- C4 witness: a non-canonical backing path is refused with nothing
deleted; a canonical one is removed together with its contents. -/
theorem c4_uninstall_witness :
    uninstall c4FsA ["d"] c4ExtA =
      (.error "extension sample is not installed, skipping", c4FsA) ∧
    (uninstall c4FsB ["d"] c4ExtB).1 = .ok () ∧
    (uninstall c4FsB ["d"] c4ExtB).2.pathExists ["d", "phylum", "extensions", "sample"] = false ∧
    (uninstall c4FsB ["d"] c4ExtB).2.lookup
      ["d", "phylum", "extensions", "sample", "main.js"] = none := by
  refine ⟨(c4_uninstall c4FsA ["d"] c4ExtA).1 (by decide), ?_, ?_, ?_⟩
  · exact ((c4_uninstall c4FsB ["d"] c4ExtB).2 rfl rfl).1
  · exact ((c4_uninstall c4FsB ["d"] c4ExtB).2 rfl rfl).2.1
  · exact ((c4_uninstall c4FsB ["d"] c4ExtB).2 rfl rfl).2.2 _ (by decide)

/-- C5: both pre-copy conflict checks of install fail without any
filesystem mutation — an existing canonical target yields an error
containing "already exists", and an identical target and source path
yields the identical-path error; the filesystem is returned unchanged. -/
theorem c5_install_precheck (fs : FileSystem) (dataDir : List String) (ext : Extension) :
    (fs.pathExists (extension_path dataDir ext.manifest.name) = true →
      install fs dataDir ext = (.error "extension already exists, skipping", fs) ∧
      strContains "extension already exists, skipping".data "already exists".data) ∧
    (fs.pathExists (extension_path dataDir ext.manifest.name) = false →
      extension_path dataDir ext.manifest.name = ext.path →
      install fs dataDir ext =
        (.error "extension path and installation path are identical, skipping", fs)) := by
  constructor
  · intro h
    exact ⟨by simp [install, h], "extension ".data, ", skipping".data, rfl⟩
  · intro h1 h2
    have h1' : fs.pathExists ext.path = false := h2 ▸ h1
    simp [install, h2, h1']

/-- Concrete extension for the C5 witness. -/
def c5Ext1 : Extension := ⟨["src"], ⟨"sample", none, ["main.js"], ⟨⟩⟩⟩

/-- Filesystem where the canonical target of `c5Ext1` already exists. -/
def c5Fs1 : FileSystem :=
  ⟨[(["d", "phylum", "extensions", "sample"], .dir), (["src"], .dir)]⟩

/-- Concrete extension whose backing path is the canonical install path. -/
def c5Ext2 : Extension :=
  ⟨["d", "phylum", "extensions", "sample"], ⟨"sample", none, ["main.js"], ⟨⟩⟩⟩

/-- C5 witness: both conflict checks on concrete inputs, unchanged
filesystem in both outcomes. -/
theorem c5_install_precheck_witness :
    install c5Fs1 ["d"] c5Ext1 = (.error "extension already exists, skipping", c5Fs1) ∧
    strContains "extension already exists, skipping".data "already exists".data ∧
    install (⟨[]⟩ : FileSystem) ["d"] c5Ext2 =
      (.error "extension path and installation path are identical, skipping", ⟨[]⟩) := by
  refine ⟨((c5_install_precheck c5Fs1 ["d"] c5Ext1).1 rfl).1,
    ((c5_install_precheck c5Fs1 ["d"] c5Ext1).1 rfl).2,
    (c5_install_precheck ⟨[]⟩ ["d"] c5Ext2).2 rfl rfl⟩

/-- Source tree for the C6 counterexample: the package root `src`
contains `src/link`, a symbolic link to the directory `real`. -/
def c6Fs : FileSystem :=
  ⟨[(["src"], .dir), (["src", "link"], .symlink ["real"]), (["real"], .dir)]⟩

/-- The extension backed by `src`, declared name `sample`. -/
def c6Ext : Extension := ⟨["src"], ⟨"sample", none, ["main.js"], ⟨⟩⟩⟩

/-- C6 counterexample: `src/link` is a symbolic link, yet installing
materializes a real directory at the corresponding destination path —
because the copy loop tests `is_dir` (which follows symlinks) before
`is_symlink`, a symlink that resolves to a directory is handled by the
directory branch instead of being skipped. -/
theorem c6_counterexample :
    c6Fs.isSymlink ["src", "link"] = true ∧
    (install c6Fs ["d"] c6Ext).1 = .ok () ∧
    (install c6Fs ["d"] c6Ext).2.lookup
      ["d", "phylum", "extensions", "sample", "link"] = some .dir :=
  ⟨rfl, rfl, rfl⟩

/-- C6 amended: a walk entry that is a symbolic link and does not resolve
to a directory is skipped — the copy step leaves the filesystem entirely
unchanged, so nothing is materialized at its destination path. -/
theorem c6_symlink_skipped (fs : FileSystem) (srcRoot destRoot p : List String)
    (h1 : fs.isSymlink p = true) (h2 : fs.isDir p = false) :
    installEntry fs srcRoot destRoot p = .ok fs := by
  simp [installEntry, h1, h2]

/-- Filesystem for the C6 witness: a symlink to a regular file. -/
def c6WitFs : FileSystem :=
  ⟨[(["s"], .dir), (["s", "f"], .file "x"), (["s", "ln"], .symlink ["s", "f"])]⟩

/-- C6 witness: the file symlink `s/ln` is skipped by the copy step. -/
theorem c6_symlink_skipped_witness :
    installEntry c6WitFs ["s"] ["t"] ["s", "ln"] = .ok c6WitFs :=
  c6_symlink_skipped c6WitFs ["s"] ["t"] ["s", "ln"] rfl rfl

/-- Filesystem for the C7 counterexample: a candidate directory with a
manifest present, whose parsed content has an invalid name and an
entry point that does not exist. -/
def c7Fs : FileSystem :=
  ⟨[(["cand"], .dir), (["cand", "PhylumExt.toml"], .file "manifest")]⟩

/-- The parse of the C7 manifest: name `@@@`, entry point `missing.ts`. -/
def c7Parse : String → Option ExtensionManifest :=
  fun _ => some ⟨"@@@", none, ["missing.ts"], ⟨⟩⟩

/-- C7 counterexample: the manifest parses, the name `@@@` is invalid and
the entry point is missing, yet the reported failure is the
missing-entry-point failure, not the invalid-name failure — the code
checks the entry point before validating the name. -/
theorem c7_counterexample :
    c7Parse "manifest" = some ⟨"@@@", none, ["missing.ts"], ⟨⟩⟩ ∧
    extensionNameMatches "@@@" = false ∧
    c7Fs.pathExists ["cand", "missing.ts"] = false ∧
    tryFromPath c7Parse c7Fs ["cand"] = .error .entryPointMissing :=
  ⟨rfl, rfl, rfl, rfl⟩

/-- C7 amended: construction performs its checks in this order, each a
distinct failure mode — the directory exists; the manifest file exists at
the fixed filename; the manifest parses; the entry point exists; the entry
point is a regular file; the name satisfies the naming pattern.  In
particular a parsed manifest with both an invalid name and a missing entry
point reports the missing-entry-point failure. -/
theorem c7_check_order (parse : String → Option ExtensionManifest)
    (fs : FileSystem) (path : List String) :
    (fs.isDir path = false → tryFromPath parse fs path = .error .notADirectory) ∧
    (fs.isDir path = true → fs.pathExists (path ++ [MANIFEST_NAME]) = false →
      tryFromPath parse fs path = .error .missingManifest) ∧
    (∀ buf, fs.isDir path = true → fs.pathExists (path ++ [MANIFEST_NAME]) = true →
      fs.readToString (path ++ [MANIFEST_NAME]) = some buf → parse buf = none →
      tryFromPath parse fs path = .error .parseFailed) ∧
    (∀ buf manifest, fs.isDir path = true →
      fs.pathExists (path ++ [MANIFEST_NAME]) = true →
      fs.readToString (path ++ [MANIFEST_NAME]) = some buf →
      parse buf = some manifest →
      fs.pathExists (path ++ manifest.entry_point) = false →
      tryFromPath parse fs path = .error .entryPointMissing) ∧
    (∀ buf manifest, fs.isDir path = true →
      fs.pathExists (path ++ [MANIFEST_NAME]) = true →
      fs.readToString (path ++ [MANIFEST_NAME]) = some buf →
      parse buf = some manifest →
      fs.pathExists (path ++ manifest.entry_point) = true →
      fs.isFile (path ++ manifest.entry_point) = false →
      tryFromPath parse fs path = .error .entryPointNotFile) ∧
    (∀ buf manifest, fs.isDir path = true →
      fs.pathExists (path ++ [MANIFEST_NAME]) = true →
      fs.readToString (path ++ [MANIFEST_NAME]) = some buf →
      parse buf = some manifest →
      fs.pathExists (path ++ manifest.entry_point) = true →
      fs.isFile (path ++ manifest.entry_point) = true →
      extensionNameMatches manifest.name = false →
      tryFromPath parse fs path =
        .error (.invalidName (invalidNameMessage manifest.name))) ∧
    (∀ buf manifest, fs.isDir path = true →
      fs.pathExists (path ++ [MANIFEST_NAME]) = true →
      fs.readToString (path ++ [MANIFEST_NAME]) = some buf →
      parse buf = some manifest →
      fs.pathExists (path ++ manifest.entry_point) = true →
      fs.isFile (path ++ manifest.entry_point) = true →
      extensionNameMatches manifest.name = true →
      tryFromPath parse fs path = .ok ⟨path, manifest⟩) := by
  refine ⟨fun h1 => by simp [tryFromPath, h1],
    fun h1 h2 => by simp [tryFromPath, h1, h2],
    fun buf h1 h2 h3 h4 => by simp [tryFromPath, h1, h2, h3, h4],
    fun buf manifest h1 h2 h3 h4 h5 => by simp [tryFromPath, h1, h2, h3, h4, h5],
    fun buf manifest h1 h2 h3 h4 h5 h6 => by simp [tryFromPath, h1, h2, h3, h4, h5, h6],
    fun buf manifest h1 h2 h3 h4 h5 h6 h7 => by
      simp [tryFromPath, validate_name, h1, h2, h3, h4, h5, h6, h7],
    fun buf manifest h1 h2 h3 h4 h5 h6 h7 => by
      simp [tryFromPath, validate_name, h1, h2, h3, h4, h5, h6, h7]⟩

/-- Filesystem for the C7 witness: a well-formed candidate with manifest
and entry point present. -/
def c7WitFs : FileSystem :=
  ⟨[(["c"], .dir), (["c", "PhylumExt.toml"], .file "m"),
    (["c", "main.js"], .file "code")]⟩

/-- The parse of the C7 witness manifest: invalid name, valid entry point. -/
def c7WitParse : String → Option ExtensionManifest :=
  fun _ => some ⟨"@@@", none, ["main.js"], ⟨⟩⟩

/-- C7 witness: with the entry point present and regular, the invalid-name
failure is reported (name validation is reached last). -/
theorem c7_check_order_witness :
    tryFromPath c7WitParse c7WitFs ["c"] =
      .error (.invalidName (invalidNameMessage "@@@")) :=
  ((((((c7_check_order c7WitParse c7WitFs ["c"]).2).2).2).2).2).1 "m"
    ⟨"@@@", none, ["main.js"], ⟨⟩⟩ rfl rfl rfl rfl rfl rfl rfl

/-- A filesystem holding a module of another extension (`other`) under the
shared extensions root. -/
def c1Fs : FileSystem :=
  ⟨[(["data", "phylum", "extensions", "other", "main.js"], .file "code")]⟩

/-- A local-file locator resolving into the `other` extension's directory. -/
def c1Url : UrlSpec :=
  ⟨"file", none, ["data", "phylum", "extensions", "other", "main.js"]⟩

/-- Network responder used in the C1 theorems (never consulted). -/
def c1Net : UrlSpec → Except Unit String := fun _ => .error ()

/-- Transpiler used in the C1 theorems (never consulted). -/
def c1Tr : String → MediaType → Except Unit String := fun _ _ => .error ()

/-- C1 counterexample: with `sample` as the running extension (canonical
package directory `<extensions root>/sample`), a local-file locator whose
resolved path lies outside that package directory — inside the sibling
extension `other` — is loaded successfully and its file is read: the
loader's boundary is the shared extensions root, not the current
extension's package directory. -/
theorem c1_counterexample :
    pathStartsWith (extension_path ["data"] "sample") c1Url.pathSegs = false ∧
    load c1Fs (extensions_path ["data"]) c1Net c1Tr "" (.url c1Url) =
      (.ok ⟨"code", .javaScript⟩,
        [.fsRead ["data", "phylum", "extensions", "other", "main.js"]]) :=
  ⟨rfl, rfl⟩

/-- C1 amended: for every local-file locator, loading succeeds only if the
resolved path lies inside the shared extensions root directory; for every
path outside that root, `load` fails with an error and performs no
filesystem read. -/
theorem c1_extensions_root_boundary (fs : FileSystem) (extensionsPath : List String)
    (net : UrlSpec → Except Unit String) (tr : String → MediaType → Except Unit String)
    (api : String) (u : UrlSpec) (p : List String)
    (h1 : u.scheme = "file") (h2 : toFilePath u = some p)
    (h3 : pathStartsWith extensionsPath p = false) :
    (load fs extensionsPath net tr api (.url u)).1.isOk = false ∧
    (load fs extensionsPath net tr api (.url u)).2 = [] := by
  cases hm : moduleTypeAndTranspile (mediaTypeOf u) with
  | none => simp [load, hm, Except.isOk, Except.toBool]
  | some mtb =>
    obtain ⟨mt, b⟩ := mtb
    simp [load, hm, h1, load_from_filesystem, h2, h3, Except.isOk, Except.toBool]

/-- C1 amended witness: a locator below `/tmp` is rejected without a read. -/
theorem c1_extensions_root_boundary_witness :
    (load c1Fs ["data", "phylum", "extensions"] c1Net c1Tr ""
        (.url ⟨"file", none, ["tmp", "evil.js"]⟩)).1.isOk = false ∧
    (load c1Fs ["data", "phylum", "extensions"] c1Net c1Tr ""
        (.url ⟨"file", none, ["tmp", "evil.js"]⟩)).2 = [] :=
  c1_extensions_root_boundary c1Fs ["data", "phylum", "extensions"] c1Net c1Tr ""
    ⟨"file", none, ["tmp", "evil.js"]⟩ ["tmp", "evil.js"] rfl rfl rfl

/-- C2: a local-file locator whose path is itself a symbolic link is
rejected with the importing-from-symlinks error even though it lies inside
the allowed subtree, and the linked file is not read (no read effect). -/
theorem c2_symlink_rejected (fs : FileSystem) (extensionsPath : List String)
    (net : UrlSpec → Except Unit String) (tr : String → MediaType → Except Unit String)
    (api : String) (u : UrlSpec) (p : List String) (mt : ModuleType) (b : Bool)
    (h0 : moduleTypeAndTranspile (mediaTypeOf u) = some (mt, b))
    (h1 : u.scheme = "file") (h2 : toFilePath u = some p)
    (h3 : pathStartsWith extensionsPath p = true)
    (h4 : fs.isSymlink p = true) :
    load fs extensionsPath net tr api (.url u) = (.error .symlinkImport, []) := by
  simp [load, h0, h1, load_from_filesystem, h2, h3, h4]

/-- Filesystem for the C2 witness: a symlink inside the sample package. -/
def c2Fs : FileSystem :=
  ⟨[(["d", "phylum", "extensions", "sample", "ln.js"],
      .symlink ["d", "phylum", "extensions", "sample", "real.js"]),
    (["d", "phylum", "extensions", "sample", "real.js"], .file "code")]⟩

/-- C2 witness: the symlinked module inside the package subtree is
rejected with the symlink error and nothing is read. -/
theorem c2_symlink_rejected_witness :
    load c2Fs ["d", "phylum", "extensions"] c1Net c1Tr ""
      (.url ⟨"file", none, ["d", "phylum", "extensions", "sample", "ln.js"]⟩) =
      (.error .symlinkImport, []) :=
  c2_symlink_rejected c2Fs ["d", "phylum", "extensions"] c1Net c1Tr ""
    ⟨"file", none, ["d", "phylum", "extensions", "sample", "ln.js"]⟩
    ["d", "phylum", "extensions", "sample", "ln.js"] .javaScript false
    rfl rfl rfl rfl rfl

/-- C3: for network locators the fetch happens exactly when the host is
the fixed domain `deno.land` (the fetch effect is recorded); any other
host fails with the bad-host error and no fetch; any scheme other than
`file` and `https` is rejected as unsupported. -/
theorem c3_host_policy (fs : FileSystem) (extensionsPath : List String)
    (net : UrlSpec → Except Unit String) (tr : String → MediaType → Except Unit String)
    (api : String) (u : UrlSpec) (mt : ModuleType) (b : Bool)
    (h0 : moduleTypeAndTranspile (mediaTypeOf u) = some (mt, b)) :
    (u.scheme = "https" → u.host = some (.domain "deno.land") →
      (load fs extensionsPath net tr api (.url u)).2 = [.netFetch u]) ∧
    (u.scheme = "https" → u.host ≠ some (.domain "deno.land") →
      load fs extensionsPath net tr api (.url u) = (.error .badHost, [])) ∧
    (u.scheme ≠ "file" → u.scheme ≠ "https" →
      load fs extensionsPath net tr api (.url u) = (.error .unsupportedScheme, [])) := by
  refine ⟨fun h1 h2 => ?_, fun h1 h2 => ?_, fun h1 h2 => ?_⟩
  · rcases hn : net u with e | t
    · simp [load, h0, h1, load_from_deno_std, h2, hn]
    · cases b with
      | false => simp [load, h0, h1, load_from_deno_std, h2, hn]
      | true =>
        rcases ht : tr t (mediaTypeOf u) with e2 | t2 <;>
          simp [load, h0, h1, load_from_deno_std, h2, hn, ht]
  · simp [load, h0, h1, load_from_deno_std, h2]
  · simp [load, h0, h1, h2]

/-- Network responder for the C3 witness. -/
def c3Net : UrlSpec → Except Unit String := fun _ => .ok "stdlib"

/-- Transpiler for the C3 witness. -/
def c3Tr : String → MediaType → Except Unit String := fun s _ => .ok s

/-- C3 witness: a deno.land locator is fetched; an evil.com locator fails
with no fetch; an ftp locator is rejected as unsupported. -/
theorem c3_host_policy_witness :
    (load ⟨[]⟩ [] c3Net c3Tr ""
        (.url ⟨"https", some (.domain "deno.land"), ["std", "mod.ts"]⟩)).2 =
      [.netFetch ⟨"https", some (.domain "deno.land"), ["std", "mod.ts"]⟩] ∧
    load ⟨[]⟩ [] c3Net c3Tr ""
        (.url ⟨"https", some (.domain "evil.com"), ["std", "mod.ts"]⟩) =
      (.error .badHost, []) ∧
    load ⟨[]⟩ [] c3Net c3Tr ""
        (.url ⟨"ftp", some (.domain "deno.land"), ["std", "mod.ts"]⟩) =
      (.error .unsupportedScheme, []) :=
  ⟨(c3_host_policy ⟨[]⟩ [] c3Net c3Tr ""
      ⟨"https", some (.domain "deno.land"), ["std", "mod.ts"]⟩ .javaScript true rfl).1
      rfl rfl,
    (c3_host_policy ⟨[]⟩ [] c3Net c3Tr ""
      ⟨"https", some (.domain "evil.com"), ["std", "mod.ts"]⟩ .javaScript true rfl).2.1
      rfl (by decide),
    (c3_host_policy ⟨[]⟩ [] c3Net c3Tr ""
      ⟨"ftp", some (.domain "deno.land"), ["std", "mod.ts"]⟩ .javaScript true rfl).2.2
      (by decide) (by decide)⟩

/-- C9: source-format handling for non-virtual locators — JavaScript-family
sources are served untranspiled as script modules, TypeScript-family
sources are transpiled before serving, JSON is tagged with the JSON module
kind untranspiled, and any other format is the unknown-format error. -/
theorem c9_format_handling (fs : FileSystem) (extensionsPath : List String)
    (net : UrlSpec → Except Unit String) (tr : String → MediaType → Except Unit String)
    (api : String) (u : UrlSpec) (p : List String) (c : String)
    (h1 : u.scheme = "file") (h2 : toFilePath u = some p)
    (h3 : pathStartsWith extensionsPath p = true)
    (h4 : fs.isSymlink p = false)
    (h5 : fs.readToString p = some c) :
    (mediaTypeOf u ∈ ([.javaScript, .mjs, .cjs] : List MediaType) →
      load fs extensionsPath net tr api (.url u) = (.ok ⟨c, .javaScript⟩, [.fsRead p])) ∧
    (mediaTypeOf u ∈
        ([.typeScript, .jsx, .mts, .cts, .dts, .dmts, .dcts, .tsx] : List MediaType) →
      ∀ t, tr c (mediaTypeOf u) = .ok t →
        load fs extensionsPath net tr api (.url u) = (.ok ⟨t, .javaScript⟩, [.fsRead p])) ∧
    (mediaTypeOf u = .json →
      load fs extensionsPath net tr api (.url u) = (.ok ⟨c, .json⟩, [.fsRead p])) ∧
    (moduleTypeAndTranspile (mediaTypeOf u) = none →
      load fs extensionsPath net tr api (.url u) = (.error .unknownFormat, [])) := by
  refine ⟨fun hm => ?_, fun hm t ht => ?_, fun hm => ?_, fun hm => ?_⟩
  · have h0 : moduleTypeAndTranspile (mediaTypeOf u) = some (.javaScript, false) := by
      simp at hm
      rcases hm with h | h | h <;> rw [h] <;> rfl
    simp [load, h0, h1, load_from_filesystem, h2, h3, h4, h5]
  · have h0 : moduleTypeAndTranspile (mediaTypeOf u) = some (.javaScript, true) := by
      simp at hm
      rcases hm with h | h | h | h | h | h | h | h <;> rw [h] <;> rfl
    simp [load, h0, h1, load_from_filesystem, h2, h3, h4, h5, ht]
  · have h0 : moduleTypeAndTranspile (mediaTypeOf u) = some (.json, false) := by
      rw [hm]
      rfl
    simp [load, h0, h1, load_from_filesystem, h2, h3, h4, h5]
  · simp [load, hm]

/-- Filesystem for the C9 witness: one module of each format family under
the sample package. -/
def c9Fs : FileSystem :=
  ⟨[(["d", "phylum", "extensions", "sample", "main.js"], .file "A"),
    (["d", "phylum", "extensions", "sample", "mod.ts"], .file "B"),
    (["d", "phylum", "extensions", "sample", "data.json"], .file "C"),
    (["d", "phylum", "extensions", "sample", "mod.wasm"], .file "D")]⟩

/-- Transpiler for the C9 witness: tags the code it is given. -/
def c9Tr : String → MediaType → Except Unit String := fun s _ => .ok ("transpiled:" ++ s)

/-- C9 witness: a `.js` file served raw, a `.ts` file transpiled, a
`.json` file tagged as JSON, and a `.wasm` file rejected. -/
theorem c9_format_handling_witness :
    load c9Fs ["d", "phylum", "extensions"] c1Net c9Tr ""
        (.url ⟨"file", none, ["d", "phylum", "extensions", "sample", "main.js"]⟩) =
      (.ok ⟨"A", .javaScript⟩,
        [.fsRead ["d", "phylum", "extensions", "sample", "main.js"]]) ∧
    load c9Fs ["d", "phylum", "extensions"] c1Net c9Tr ""
        (.url ⟨"file", none, ["d", "phylum", "extensions", "sample", "mod.ts"]⟩) =
      (.ok ⟨"transpiled:B", .javaScript⟩,
        [.fsRead ["d", "phylum", "extensions", "sample", "mod.ts"]]) ∧
    load c9Fs ["d", "phylum", "extensions"] c1Net c9Tr ""
        (.url ⟨"file", none, ["d", "phylum", "extensions", "sample", "data.json"]⟩) =
      (.ok ⟨"C", .json⟩,
        [.fsRead ["d", "phylum", "extensions", "sample", "data.json"]]) ∧
    load c9Fs ["d", "phylum", "extensions"] c1Net c9Tr ""
        (.url ⟨"file", none, ["d", "phylum", "extensions", "sample", "mod.wasm"]⟩) =
      (.error .unknownFormat, []) :=
  ⟨(c9_format_handling c9Fs ["d", "phylum", "extensions"] c1Net c9Tr ""
      ⟨"file", none, ["d", "phylum", "extensions", "sample", "main.js"]⟩
      ["d", "phylum", "extensions", "sample", "main.js"] "A"
      rfl rfl rfl rfl rfl).1 (by decide),
    (c9_format_handling c9Fs ["d", "phylum", "extensions"] c1Net c9Tr ""
      ⟨"file", none, ["d", "phylum", "extensions", "sample", "mod.ts"]⟩
      ["d", "phylum", "extensions", "sample", "mod.ts"] "B"
      rfl rfl rfl rfl rfl).2.1 (by decide) "transpiled:B" rfl,
    (c9_format_handling c9Fs ["d", "phylum", "extensions"] c1Net c9Tr ""
      ⟨"file", none, ["d", "phylum", "extensions", "sample", "data.json"]⟩
      ["d", "phylum", "extensions", "sample", "data.json"] "C"
      rfl rfl rfl rfl rfl).2.2.1 rfl,
    (c9_format_handling c9Fs ["d", "phylum", "extensions"] c1Net c9Tr ""
      ⟨"file", none, ["d", "phylum", "extensions", "sample", "mod.wasm"]⟩
      ["d", "phylum", "extensions", "sample", "mod.wasm"] "D"
      rfl rfl rfl rfl rfl).2.2.2 rfl⟩

/-- C10: the source-format check runs before the scheme, boundary and host
checks — for every URL locator of unrecognized format, `load` returns the
unknown-format error with an empty effect trace (no filesystem read, no
network request), whatever its scheme, path or host. -/
theorem c10_format_checked_first (fs : FileSystem) (extensionsPath : List String)
    (net : UrlSpec → Except Unit String) (tr : String → MediaType → Except Unit String)
    (api : String) (u : UrlSpec)
    (h : moduleTypeAndTranspile (mediaTypeOf u) = none) :
    load fs extensionsPath net tr api (.url u) = (.error .unknownFormat, []) := by
  simp [load, h]

/-- C10 witness: a locator that violates the scheme, boundary and host
policies all at once still reports the unknown-format error, with no
effects. -/
theorem c10_format_checked_first_witness :
    load (⟨[]⟩ : FileSystem) ["d", "phylum", "extensions"] c3Net c3Tr ""
      (.url ⟨"ftp", some (.domain "evil.com"), ["x", "mod.wasm"]⟩) =
      (.error .unknownFormat, []) :=
  c10_format_checked_first ⟨[]⟩ ["d", "phylum", "extensions"] c3Net c3Tr ""
    ⟨"ftp", some (.domain "evil.com"), ["x", "mod.wasm"]⟩ rfl

end Phylum
